import Mathlib

/-!
Verification development for `scripts/create_favicons.py`, a Python/Pillow
script that procedurally generates favicon assets.  The script's own
computation (constants, geometry, blend arithmetic, loop structure, file
pipeline) is embedded directly from the source.  The Pillow raster
primitives and the standard-library filesystem calls are not part of the
repository; they are modelled from their documented behaviour, as described
by the specification, and every such definition says so in its doc comment.

Arithmetic conventions used throughout:
* Python `//` on non-negative integers is `Nat` division.
* Python `int(x)` on a non-negative real is the floor; the script's
  floating-point expressions are modelled by exact rational arithmetic.
  At every value the script actually computes, the IEEE-double result and
  the exact result truncate to the same integer except possibly where the
  exact value is itself an integer reachable only with rounding error; no
  theorem below depends on such a boundary value (see the individual doc
  comments).
-/

/-- An 8-bit RGBA color; channels are kept as plain naturals. -/
structure RGBA where
  r : Nat
  g : Nat
  b : Nat
  a : Nat
deriving DecidableEq

/-- An in-memory image: width, height, and a pixel lookup, mirroring a
Pillow canvas.  Coordinates are (x, y) with y growing downwards. -/
structure Img where
  w : Nat
  h : Nat
  px : Nat → Nat → RGBA

/-- Membership of the integer point `(x, y)` in the filled ellipse that
Pillow inscribes in the bounding box `[x0, y0, x1, y1]`: the point is inside
the box and satisfies the ellipse inequality for the box's center
`((x0+x1)/2, (y0+y1)/2)` and semi-axes `((x1-x0)/2, (y1-y0)/2)` (cleared of
denominators).  Modelled from the spec: `ImageDraw.ellipse` fills exactly
the pixels inside the bounding-box ellipse, boundary included. -/
def insideEllipse (x0 y0 x1 y1 x y : Int) : Prop :=
  x0 ≤ x ∧ x ≤ x1 ∧ y0 ≤ y ∧ y ≤ y1 ∧
    (2 * x - (x0 + x1)) ^ 2 * (y1 - y0) ^ 2 + (2 * y - (y0 + y1)) ^ 2 * (x1 - x0) ^ 2
      ≤ (x1 - x0) ^ 2 * (y1 - y0) ^ 2

instance insideEllipse.dec (x0 y0 x1 y1 x y : Int) :
    Decidable (insideEllipse x0 y0 x1 y1 x y) := by
  unfold insideEllipse
  infer_instance

/-- Modelled from the spec: `draw.ellipse(box, fill=c)` repaints every pixel
of the bounding-box ellipse with `c` and leaves every other pixel alone. -/
def fillEllipse (img : Img) (x0 y0 x1 y1 : Int) (c : RGBA) : Img :=
  { img with px := fun x y => if insideEllipse x0 y0 x1 y1 (x : Int) (y : Int) then c else img.px x y }

/-- `colors[0]` of the script: the first brand color. -/
def colorA : Nat × Nat × Nat := (46, 227, 255)

/-- `colors[1]` of the script: the second brand color. -/
def colorB : Nat × Nat × Nat := (0, 197, 161)

/-- `colors = [(46, 227, 255), (0, 197, 161)]`. -/
def colors : List (Nat × Nat × Nat) := [colorA, colorB]

/-- `background = (5, 12, 26)`. -/
def background : Nat × Nat × Nat := (5, 12, 26)

/-- One blended channel of the gradient:
`int(a * ratio + b * (1 - ratio))` with `ratio = i / n`.  For naturals
`a b i n` with `i ≤ n` the exact real value is `(a*i + b*(n-i)) / n`,
whose truncation is this natural division.  (The script computes the same
expression in IEEE doubles; every channel value a theorem below relies on
is at least 0.3 away from the nearest wrong integer, so the double result
truncates identically.) -/
def blendChannel (a b i n : Nat) : Nat := (a * i + b * (n - i)) / n

/-- The fully-opaque fill color of ring `i` out of `n`:
`(r, g, b, 255)` with each channel blended from `colors[0]` and `colors[1]`. -/
def blendColor (i n : Nat) : RGBA :=
  ⟨blendChannel colorA.1 colorB.1 i n,
   blendChannel colorA.2.1 colorB.2.1 i n,
   blendChannel colorA.2.2 colorB.2.2 i n, 255⟩

/-- `radius = int(size * 0.4)`.  The exact value of `0.4 * size` is
`4 * size / 10`, and its truncation is `Nat` division; the IEEE-double
product `size * 0.4` truncates to the same integer for every size below
`10^15` (the double nearest 0.4 is slightly above 0.4, and `int` truncates
downwards). -/
def pyRadius (size : Nat) : Nat := 4 * size / 10

/-- Python `range(a, 0, -1)`: the list `[a, a-1, ..., 1]`. -/
def pyRangeDown (a : Nat) : List Nat := ((List.range a).map (· + 1)).reverse

/-- Shallow embedding of `draw_circle_gradient(img, draw)`: for `i` from
`radius` down to `1` it fills the disc of radius `i` centered at
`(size // 2, size // 2)` with the ring-`i` blend, then returns the mutated
image together with `(radius, cx, cy)`. -/
def draw_circle_gradient (img : Img) : Img × Nat × Nat × Nat :=
  let size := img.w
  let cx := size / 2
  let cy := size / 2
  let radius := pyRadius size
  let painted := (pyRangeDown radius).foldl
    (fun im (i : Nat) =>
      fillEllipse im ((cx : Int) - (i : Int)) ((cy : Int) - (i : Int))
        ((cx : Int) + (i : Int)) ((cy : Int) + (i : Int)) (blendColor i radius)) img
  (painted, radius, cx, cy)

/-- `Image.new("RGBA", (size, size), background)`: a fresh square canvas
with every pixel holding the background color at full opacity (Pillow fills
the alpha channel of an RGBA canvas with 255 when given an RGB triple). -/
def Image.new (size : Nat) : Img :=
  { w := size, h := size, px := fun _ _ => ⟨background.1, background.2.1, background.2.2, 255⟩ }

/-- The canvas of side `size` right after the gradient stage (before the
accent stage): the state the spec's center/rim property talks about. -/
def gradientCanvas (size : Nat) : Img :=
  (draw_circle_gradient (Image.new size)).1

/-- Truncation towards zero of the exact ratio `n / 10`.  The script's
accent boxes are float expressions `c ± radius * d` with one decimal digit
(`0.7`, `0.3`, ...); their exact values are tenths, and Pillow casts each
coordinate to C `int`, truncating towards zero.  `Int.tdiv` is exactly that
truncation.  At the radii the script produces (6, 12, 72) every such exact
value is either non-integral by at least 0.2 or hit exactly by the double
computation (the `radius * 0.5` terms), so the double result truncates to
the same integer. -/
def tdiv10 (n : Int) : Int := n.tdiv 10

/-- `width = max(1, size // 16)`, the stroke width of the first accent arc. -/
def accent_width1 (size : Nat) : Nat := max 1 (size / 16)

/-- `max(2, size // 12)`, the stroke width of the second accent arc. -/
def accent_width2 (size : Nat) : Nat := max 2 (size / 12)

/-- Modelled from the spec: `draw.arc(box, start, end, fill, width)` draws a
stroke that lies on the ellipse inscribed in `box`, `width` pixels deep
towards the inside, clipped to the angular range `start..end`.  Every pixel
it touches therefore lies inside the bounding-box ellipse; the model
over-approximates the stroke by that full elliptical region (the angular
clipping and the inner stroke boundary only remove pixels).  The start/end
angles and the width are kept as arguments to mirror the call but do not
shrink the modelled region. -/
def draw_arc (img : Img) (x0 y0 x1 y1 : Int) (astart aend : Nat) (c : RGBA) (width : Nat) : Img :=
  let _ := astart
  let _ := aend
  let _ := width
  { img with px := fun x y => if insideEllipse x0 y0 x1 y1 (x : Int) (y : Int) then c else img.px x y }

/-- Shallow embedding of `draw_accent(draw, radius, cx, cy, size)`: two arcs
and a small filled highlight ellipse.  Each fractional box coordinate,
e.g. `cx - radius * 0.7`, is the exact value `(10*cx - 7*radius) / 10`
truncated towards zero (see `tdiv10`).  `highlight = int(radius * 0.25)` is
exactly `radius // 4` because 0.25 is a power of two and so exact in
floating point. -/
def draw_accent (img : Img) (radius cx cy size : Nat) : Img :=
  let width := accent_width1 size
  let r : Int := radius
  let cxi : Int := cx
  let cyi : Int := cy
  let img1 := draw_arc img
    (tdiv10 (10 * cxi - 7 * r)) (tdiv10 (10 * cyi - 3 * r))
    (tdiv10 (10 * cxi + 7 * r)) (tdiv10 (10 * cyi + 5 * r))
    200 340 ⟨244, 251, 255, 255⟩ width
  let img2 := draw_arc img1
    (tdiv10 (10 * cxi - 6 * r)) (tdiv10 (10 * cyi - 1 * r))
    (tdiv10 (10 * cxi + 6 * r)) (tdiv10 (10 * cyi + 9 * r))
    120 220 ⟨18, 168, 195, 255⟩ (accent_width2 size)
  let highlight : Int := (radius / 4 : Nat)
  fillEllipse img2
    (tdiv10 (10 * cxi - 10 * highlight)) (tdiv10 (10 * cyi - 6 * highlight))
    (tdiv10 (10 * cxi - 2 * highlight)) (tdiv10 (10 * cyi))
    ⟨244, 251, 255, 255⟩

/-- One iteration of the script's export loop: a fresh background canvas,
the gradient stage, then the accent stage. -/
def renderIcon (size : Nat) : Img :=
  let img := Image.new size
  let g := draw_circle_gradient img
  draw_accent g.1 g.2.1 g.2.2.1 g.2.2.2 size

/-- The finished canvas of side `size` (both drawing stages applied), as it
is saved to disk. -/
def finalCanvas (size : Nat) : Img := renderIcon size

/-- A filesystem path, one component per list entry. -/
abbrev FPath := List String

/-- `logo_dir = Path("C:/Projects/CoralLedgerBlue/src/CoralLedger.Blue.Web/wwwroot/images/logos/favicons")`. -/
def logo_dir : FPath :=
  ["C:", "Projects", "CoralLedgerBlue", "src", "CoralLedger.Blue.Web", "wwwroot", "images",
   "logos", "favicons"]

/-- The fixed `(size, filename)` pairs of the export loop, in source order. -/
def sized_outputs : List (Nat × String) :=
  [(16, "favicon-16x16.png"), (32, "favicon-32x32.png"), (180, "apple-touch-icon.png")]

/-- `ico_sizes = [(16, 16), (32, 32), (64, 64)]`. -/
def ico_sizes : List (Nat × Nat) := [(16, 16), (32, 32), (64, 64)]

/-- Flatten a list of byte lists. -/
def flattenBytes (l : List (List Nat)) : List Nat := l.foldr (· ++ ·) []

/-- Modelled from the spec: PNG serialization is a deterministic pure
function of the pixel data alone — no timestamps, no randomness.  The
actual chunk/zlib byte layout is not modelled; the serialization here is
width, height, then the RGBA bytes row-major, which preserves exactly the
information a PNG of the canvas carries. -/
def pngEncode (img : Img) : List Nat :=
  img.w :: img.h ::
    flattenBytes ((List.range img.h).map fun y =>
      flattenBytes ((List.range img.w).map fun x =>
        [(img.px x y).r, (img.px x y).g, (img.px x y).b, (img.px x y).a]))

/-- Modelled from the spec: reading a PNG back (`Image.open`) recovers the
canvas `pngEncode` serialized. -/
def pngDecode (bytes : List Nat) : Img :=
  { w := bytes.headD 0, h := (bytes.drop 1).headD 0,
    px := fun x y =>
      let base := 2 + 4 * (y * bytes.headD 0 + x)
      ⟨bytes.getD base 0, bytes.getD (base + 1) 0, bytes.getD (base + 2) 0,
       bytes.getD (base + 3) 0⟩ }

/-- Modelled from the spec: `Image.resize(size, Image.LANCZOS)` returns an
image of exactly the requested dimensions.  The Lanczos kernel itself is
not modelled (no claim depends on resampled pixel values); pixels are
represented by nearest-neighbour sampling, which agrees with a same-size
resize up to the exact pixel function. -/
def Img.resize (img : Img) (s : Nat × Nat) : Img :=
  { w := s.1, h := s.2,
    px := fun x y => img.px (x * img.w / s.1) (y * img.h / s.2) }

/-- The frame dimensions Pillow's ICO writer actually emits.  Modelled from
the spec and Pillow's documented contract for `save(format="ICO", sizes=…)`:
"Any sizes bigger than the original size or 256 will be ignored."  The
writer iterates `sorted(set(sizes))`, which is the identity on the script's
already-sorted, duplicate-free `ico_sizes`. -/
def icoFrameSizes (base : Nat × Nat) (sizes : List (Nat × Nat)) : List (Nat × Nat) :=
  sizes.filter fun s => decide (s.1 ≤ base.1 ∧ s.2 ≤ base.2 ∧ s.1 ≤ 256 ∧ s.2 ≤ 256)

/-- The frames embedded in the ICO container: for each surviving size, the
saved image itself when it already has that size, otherwise a resampling of
it (Pillow thumbnails the saved image).  Modelled from the spec. -/
def icoFrames (im : Img) (sizes : List (Nat × Nat)) : List Img :=
  (icoFrameSizes (im.w, im.h) sizes).map fun s =>
    if im.w = s.1 ∧ im.h = s.2 then im else im.resize s

/-- Modelled from the spec: the ICO container serialized as the frame
count, the directory of frame dimensions, then each frame's pixel data.
Deterministic; the exact ICO byte layout is not modelled, the frame
structure is. -/
def icoEncode (im : Img) (sizes : List (Nat × Nat)) : List Nat :=
  let frames := icoFrames im sizes
  frames.length :: (flattenBytes (frames.map fun f => [f.w, f.h]) ++
    flattenBytes (frames.map pngEncode))

/-- Modelled filesystem state: the set of existing directories and the
files with their contents. -/
structure FS where
  dirs : List FPath
  files : List (FPath × List Nat)

/-- All non-empty prefixes of a path: the chain of directories
`mkdir(parents=True)` has to ensure. -/
def pathAncestors (p : FPath) : List FPath :=
  (List.range p.length).map fun k => p.take (k + 1)

/-- Modelled from the spec: `pathlib.Path.mkdir(parents, exist_ok)`.
If the directory exists, succeed only when `exist_ok`; otherwise create it,
creating missing parents when `parents` is set and failing when a parent is
missing and `parents` is not set.  `none` is the raised error. -/
def FS.mkdir (fs : FS) (p : FPath) (parents existOk : Bool) : Option FS :=
  if fs.dirs.contains p then
    if existOk then some fs else none
  else if parents then
    some { fs with dirs := fs.dirs ++ (pathAncestors p).filter (fun q => !fs.dirs.contains q) }
  else if p.dropLast = [] ∨ fs.dirs.contains p.dropLast then
    some { fs with dirs := fs.dirs ++ [p] }
  else none

/-- Modelled from the spec: `img.save(path)` writes (or overwrites) the
file at `path`. -/
def FS.writeFile (fs : FS) (p : FPath) (d : List Nat) : FS :=
  { fs with files := fs.files.filter (fun q => q.1 ≠ p) ++ [(p, d)] }

/-- Modelled from the spec: opening a file returns its bytes, or fails when
it does not exist. -/
def FS.readFile (fs : FS) (p : FPath) : Option (List Nat) :=
  (fs.files.find? fun q => q.1 = p).map Prod.snd

/-- The I/O actions of the script, in the order it performs them. -/
inductive Ev where
  | mkdir (p : FPath) (parents existOk : Bool)
  | write (p : FPath)
  | readF (p : FPath)
deriving DecidableEq

/-- Shallow embedding of the script's top level: create the output
directory, render and save the three PNGs in order, reopen the 32×32
master, resize it to the three ICO sizes, and save `icons[0]` as
`favicon.ico` with `sizes=ico_sizes`.  Returns the final filesystem and the
I/O trace, or `none` when an unhandled fault aborts the run. -/
def runScript (fs : FS) : Option (FS × List Ev) :=
  match fs.mkdir logo_dir true true with
  | none => none
  | some fs1 =>
    let step : FS × List Ev → Nat × String → FS × List Ev := fun acc so =>
      (acc.1.writeFile (logo_dir ++ [so.2]) (pngEncode (renderIcon so.1)),
       acc.2 ++ [Ev.write (logo_dir ++ [so.2])])
    let acc1 := sized_outputs.foldl step (fs1, [Ev.mkdir logo_dir true true])
    let basePath := logo_dir ++ ["favicon-32x32.png"]
    match acc1.1.readFile basePath with
    | none => none
    | some bytes =>
      let base := pngDecode bytes
      let icons := ico_sizes.map fun s => base.resize s
      some (acc1.1.writeFile (logo_dir ++ ["favicon.ico"]) (icoEncode (icons.headD base) ico_sizes),
            acc1.2 ++ [Ev.readF basePath, Ev.write (logo_dir ++ ["favicon.ico"])])

/-- The ambient sources of nondeterminism a run could observe (wall clock,
random stream).  Modelled from the spec: the script never reads either. -/
structure Env where
  clock : Nat
  rand : Nat → Nat

/-- A run of the script in an environment.  The environment is accepted and
ignored, exactly as the source ignores time and randomness. -/
def runScriptEnv (e : Env) (fs : FS) : Option (FS × List Ev) :=
  let _ := e
  runScript fs

/-- The empty filesystem: the starting state in which not even the output
directory exists. -/
def fs0 : FS := ⟨[], []⟩

/-- The run of the script the repository actually performs. -/
def scriptRun : Option (FS × List Ev) := runScript fs0

/-- The blend of one channel exactly as §4.1 of the spec words it:
`ratio = i / radius` as a real (here rational) number, the channel
`colorA * ratio + colorB * (1 - ratio)`, truncated to an integer.  Written
from the spec's words, to be compared with the source-side `blendChannel`. -/
def specChannel (a b i n : Nat) : Nat :=
  ⌊(a : ℚ) * ((i : ℚ) / (n : ℚ)) + (b : ℚ) * (1 - (i : ℚ) / (n : ℚ))⌋₊

/-- The ring color as the spec words it, from the two brand colors. -/
def specColor (i n : Nat) : RGBA :=
  ⟨specChannel colorA.1 colorB.1 i n,
   specChannel colorA.2.1 colorB.2.1 i n,
   specChannel colorA.2.2 colorB.2.2 i n, 255⟩

/-- "Draw a filled circle (disc) of radius `i` centered at the canvas
midpoint": repaint exactly the integer points at squared distance at most
`i²` from the center.  Written from the spec's words. -/
def specDisc (img : Img) (cx cy i : Nat) (c : RGBA) : Img :=
  { img with px := fun x y =>
      if ((x : Int) - (cx : Int)) ^ 2 + ((y : Int) - (cy : Int)) ^ 2 ≤ (i : Int) ^ 2
      then c else img.px x y }

/-- The gradient stage as §4.1 of the spec describes it: radius
`⌊0.4 × size⌋`, ring index `i` from the radius down to 1, each ring a disc
of radius `i` at the midpoint in the blended color, returning the radius
and center.  Written from the spec's words, to be compared with the
source-side `draw_circle_gradient`. -/
def spec_gradient (img : Img) : Img × Nat × Nat × Nat :=
  let size := img.w
  let mid := size / 2
  let radius := ⌊(4 / 10 : ℚ) * (size : ℚ)⌋₊
  ((pyRangeDown radius).foldl
    (fun im (i : Nat) => specDisc im mid mid i (specColor i radius)) img,
   radius, mid, mid)

/-- The claim's "equal within ±1 per channel" relation between a pixel and
an RGB triple. -/
def withinOne (c : RGBA) (t : Nat × Nat × Nat) : Prop :=
  ((c.r : Int) - (t.1 : Int)).natAbs ≤ 1 ∧
    ((c.g : Int) - (t.2.1 : Int)).natAbs ≤ 1 ∧
    ((c.b : Int) - (t.2.2 : Int)).natAbs ≤ 1

instance withinOne.dec (c : RGBA) (t : Nat × Nat × Nat) : Decidable (withinOne c t) := by
  unfold withinOne
  infer_instance

/-- One export as §4.3 of the spec words it: construct a fresh canvas
pre-filled with the background color, run the gradient stage then the
accent stage on it, and persist the result as a PNG at
`<output_dir>/<filename>`.  Written from the spec's words, to be compared
with what the source's loop actually saves. -/
def spec_export (size : Nat) (filename : String) : FPath × List Nat :=
  let canvas := Image.new size
  let g := draw_circle_gradient canvas
  let drawn := draw_accent g.1 g.2.1 g.2.2.1 g.2.2.2 size
  (logo_dir ++ [filename], pngEncode drawn)

/-! ## Helper lemmas -/

/-- Membership of the Python loop `range(n, 0, -1)`. -/
theorem mem_pyRangeDown {i n : Nat} : i ∈ pyRangeDown n ↔ 1 ≤ i ∧ i ≤ n := by
  unfold pyRangeDown
  simp only [List.mem_reverse, List.mem_map, List.mem_range]
  constructor
  · rintro ⟨a, ha, rfl⟩
    omega
  · rintro ⟨h1, h2⟩
    exact ⟨i - 1, by omega, by omega⟩

/-- The bounding-box ellipse of the box `[cx-i, cy-i, cx+i, cy+i]` is the
disc of radius `i` around `(cx, cy)`. -/
theorem insideEllipse_disc (cx cy i x y : Int) (hi : 0 < i) :
    insideEllipse (cx - i) (cy - i) (cx + i) (cy + i) x y ↔
      (x - cx) ^ 2 + (y - cy) ^ 2 ≤ i ^ 2 := by
  unfold insideEllipse
  constructor
  · rintro ⟨-, -, -, -, h5⟩
    nlinarith [h5, mul_pos hi hi]
  · intro h
    have hx : (x - cx) ^ 2 ≤ i ^ 2 := by nlinarith [sq_nonneg (y - cy)]
    have hy : (y - cy) ^ 2 ≤ i ^ 2 := by nlinarith [sq_nonneg (x - cx)]
    obtain ⟨hx1, hx2⟩ := abs_le_of_sq_le_sq' hx hi.le
    obtain ⟨hy1, hy2⟩ := abs_le_of_sq_le_sq' hy hi.le
    refine ⟨by omega, by omega, by omega, by omega, ?_⟩
    nlinarith [h, mul_pos hi hi, sq_nonneg (x - cx), sq_nonneg (y - cy)]

/-- The source's box-style disc fill coincides with the spec's
distance-style disc fill. -/
theorem fillEllipse_eq_specDisc (im : Img) (c : RGBA) (cx cy i : Nat) (hi : 0 < i) :
    fillEllipse im ((cx : Int) - (i : Int)) ((cy : Int) - (i : Int))
      ((cx : Int) + (i : Int)) ((cy : Int) + (i : Int)) c = specDisc im cx cy i c := by
  unfold fillEllipse specDisc
  congr 1
  funext x y
  rw [if_congr (insideEllipse_disc (cx : Int) (cy : Int) (i : Int) x y (by exact_mod_cast hi))
    rfl rfl]

/-- The spec's real-arithmetic channel blend truncates to the source's
integer formula. -/
theorem specChannel_eq_blendChannel (a b i n : Nat) (hn : 0 < n) (hin : i ≤ n) :
    specChannel a b i n = blendChannel a b i n := by
  unfold specChannel blendChannel
  have hn0 : ((n : ℚ)) ≠ 0 := Nat.cast_ne_zero.mpr hn.ne'
  have hq : (a : ℚ) * ((i : ℚ) / (n : ℚ)) + (b : ℚ) * (1 - (i : ℚ) / (n : ℚ))
      = ((a * i + b * (n - i) : ℕ) : ℚ) / ((n : ℕ) : ℚ) := by
    push_cast [Nat.cast_sub hin]
    field_simp
  rw [hq, Nat.floor_div_nat, Nat.floor_natCast]

/-- The spec's ring color is the source's ring color. -/
theorem specColor_eq_blendColor (i n : Nat) (hn : 0 < n) (hin : i ≤ n) :
    specColor i n = blendColor i n := by
  unfold specColor blendColor
  rw [specChannel_eq_blendChannel _ _ _ _ hn hin, specChannel_eq_blendChannel _ _ _ _ hn hin,
    specChannel_eq_blendChannel _ _ _ _ hn hin]

/-- The spec's `⌊0.4 × size⌋` is the source's `int(size * 0.4)`. -/
theorem floor_two_fifths_eq_pyRadius (s : Nat) : ⌊(4 / 10 : ℚ) * (s : ℚ)⌋₊ = pyRadius s := by
  have hq : (4 / 10 : ℚ) * (s : ℚ) = ((4 * s : ℕ) : ℚ) / ((10 : ℕ) : ℚ) := by
    push_cast
    ring
  rw [hq, Nat.floor_div_nat, Nat.floor_natCast]
  rfl

/-- Source-vs-spec bridge for the whole gradient stage. -/
theorem draw_circle_gradient_eq_spec (img : Img) :
    draw_circle_gradient img = spec_gradient img := by
  simp only [draw_circle_gradient, spec_gradient]
  rw [floor_two_fifths_eq_pyRadius]
  refine Prod.ext ?_ rfl
  refine List.foldl_ext _ _ _ fun im i hi => ?_
  obtain ⟨h1, h2⟩ := mem_pyRangeDown.mp hi
  rw [fillEllipse_eq_specDisc im _ _ _ i h1,
    specColor_eq_blendColor i _ (lt_of_lt_of_le h1 h2) h2]

/-- Each blended channel sits between its two endpoint channels. -/
theorem blendChannel_bounds (a b i n : Nat) (hba : b ≤ a) (hn : 0 < n) (hin : i ≤ n) :
    b ≤ blendChannel a b i n ∧ blendChannel a b i n ≤ a := by
  unfold blendChannel
  constructor
  · have hsplit : b * n = b * i + b * (n - i) := by
      rw [← Nat.mul_add, Nat.add_sub_cancel' hin]
    have hbi : b * i ≤ a * i := Nat.mul_le_mul_right i hba
    have h1 : b * n ≤ a * i + b * (n - i) := by omega
    calc b = b * n / n := (Nat.mul_div_cancel b hn).symm
    _ ≤ (a * i + b * (n - i)) / n := Nat.div_le_div_right h1
  · have hsplit : a * n = a * i + a * (n - i) := by
      rw [← Nat.mul_add, Nat.add_sub_cancel' hin]
    have hbi : b * (n - i) ≤ a * (n - i) := Nat.mul_le_mul_right (n - i) hba
    have h2 : a * i + b * (n - i) ≤ a * n := by omega
    calc (a * i + b * (n - i)) / n ≤ a * n / n := Nat.div_le_div_right h2
    _ = a := Nat.mul_div_cancel a hn

/-! ## Claim theorems -/

/-- C1 counterexample: after the gradient is drawn on the 16×16 canvas, the
exact center pixel (8, 8) is not within ±1 per channel of the first brand
color (46, 227, 255) — it holds the innermost ring blend (7, 202, 176), on
the second brand color's side of the gradient. -/
theorem center_pixel_far_from_first_color :
    ¬ withinOne ((gradientCanvas 16).px 8 8) colorA ∧
      (gradientCanvas 16).px 8 8 = ⟨7, 202, 176, 255⟩ := by decide

/-- C1 (amended): for each generated size, every pixel at distance exactly
the computed radius from the center holds the FIRST brand color
(46, 227, 255) exactly, and the exact center pixel holds the innermost ring
blend `blendColor 1 radius` — which approaches the SECOND brand color as
the radius grows and is within ±1 of it at size 180.  (For sizes 16 and 32
the whole pixel grid is checked; for size 180 the four axis points are
exactly the lattice points at distance 72, since 72² = 5184 has no
representation as a sum of two positive squares.) -/
theorem gradient_rim_is_first_color_center_near_second :
    ((∀ x : Nat, x < 16 → ∀ y : Nat, y < 16 →
        ((x : Int) - 8) ^ 2 + ((y : Int) - 8) ^ 2 = 36 →
        (gradientCanvas 16).px x y = ⟨46, 227, 255, 255⟩) ∧
      (gradientCanvas 16).px 8 8 = blendColor 1 (pyRadius 16)) ∧
    ((∀ x : Nat, x < 32 → ∀ y : Nat, y < 32 →
        ((x : Int) - 16) ^ 2 + ((y : Int) - 16) ^ 2 = 144 →
        (gradientCanvas 32).px x y = ⟨46, 227, 255, 255⟩) ∧
      (gradientCanvas 32).px 16 16 = blendColor 1 (pyRadius 32)) ∧
    (((gradientCanvas 180).px 162 90 = ⟨46, 227, 255, 255⟩ ∧
        (gradientCanvas 180).px 18 90 = ⟨46, 227, 255, 255⟩ ∧
        (gradientCanvas 180).px 90 162 = ⟨46, 227, 255, 255⟩ ∧
        (gradientCanvas 180).px 90 18 = ⟨46, 227, 255, 255⟩) ∧
      (gradientCanvas 180).px 90 90 = blendColor 1 (pyRadius 180) ∧
      withinOne ((gradientCanvas 180).px 90 90) colorB) := by decide

/-- Witness for the amended C1 theorem at the concrete rim pixel (14, 8) of
the 16×16 canvas. -/
theorem gradient_rim_is_first_color_center_near_second_witness :
    (14 : Nat) < 16 ∧ (gradientCanvas 16).px 14 8 = ⟨46, 227, 255, 255⟩ :=
  ⟨by decide,
   gradient_rim_is_first_color_center_near_second.1.1 14 (by decide) 8 (by decide) (by decide)⟩

/-- C2: the source's gradient stage coincides, on every canvas, with the
spec's description of it — radius `⌊0.4 × size⌋`, ring index from the
radius down to 1, each ring a fully opaque disc of radius `i` at
`(size // 2, size // 2)` whose channels are
`trunc(colorA * (i/radius) + colorB * (1 - i/radius))`, returning the
radius and the center coordinates. -/
theorem gradient_stage_refines_spec (img : Img) :
    draw_circle_gradient img = spec_gradient img :=
  draw_circle_gradient_eq_spec img

/-- C3 (the code diverges from this claim): in the run the script performs,
the saved `favicon.ico` container holds exactly ONE frame, of dimensions
16×16 — not three frames 16/32/64.  Pillow ignores requested ICO sizes
larger than the image being saved, and the image saved is `icons[0]`, the
16×16 resize; the 32×32 and 64×64 members of `icons` are never passed to
`save`.  The container's modelled header is [frame count, width, height]. -/
theorem favicon_ico_has_single_16px_frame :
    (scriptRun.bind fun r => (r.1.readFile (logo_dir ++ ["favicon.ico"])).map (List.take 3))
        = some [1, 16, 16] ∧
      icoFrameSizes (16, 16) ico_sizes = [(16, 16)] ∧
      icoFrameSizes (16, 16) ico_sizes ≠ ico_sizes := by decide

/-- C4: the outputs are deterministic — two runs of the script from the
same starting filesystem, under any two ambient environments (clock,
randomness), produce identical results; in particular the bytes of the
three PNG files agree byte for byte. -/
theorem outputs_independent_of_environment (e1 e2 : Env) (fs : FS) :
    runScriptEnv e1 fs = runScriptEnv e2 fs ∧
      (runScriptEnv e1 fs).map (fun r =>
          sized_outputs.map fun so => r.1.readFile (logo_dir ++ [so.2]))
        = (runScriptEnv e2 fs).map (fun r =>
          sized_outputs.map fun so => r.1.readFile (logo_dir ++ [so.2])) :=
  ⟨rfl, rfl⟩

/-- C5: the gradient loop indices are exactly `radius, ..., 1`, so every
ratio `i / radius` the loop evaluates has a positive divisor, and when the
radius resolves to 0 the loop body (and with it the division) is never
reached. -/
theorem gradient_division_guarded (size : Nat) :
    (pyRadius size = 0 → pyRangeDown (pyRadius size) = []) ∧
      ∀ i ∈ pyRangeDown (pyRadius size), 1 ≤ i ∧ 1 ≤ pyRadius size := by
  constructor
  · intro h
    rw [h]
    rfl
  · intro i hi
    obtain ⟨h1, h2⟩ := mem_pyRangeDown.mp hi
    exact ⟨h1, le_trans h1 h2⟩

/-- Witness for C5: at size 2 the radius is 0 and the ring list is empty;
at size 16 the ring index 6 is in the loop and the divisor is positive. -/
theorem gradient_division_guarded_witness :
    pyRangeDown (pyRadius 2) = [] ∧ (1 ≤ 6 ∧ 1 ≤ pyRadius 16) :=
  ⟨(gradient_division_guarded 2).1 (by decide),
   (gradient_division_guarded 16).2 6 (by decide)⟩

/-- C6: the export loop saves, in order, exactly the three fixed
(size, filename) pairs, each as the spec describes one export (fresh
background-filled canvas, gradient stage, accent stage, PNG under the
output directory with that filename); and a fresh canvas of any size is
pre-filled with the background color at every pixel. -/
theorem export_loop_structure :
    scriptRun.map (fun r => r.1.files.take 3)
      = some [spec_export 16 "favicon-16x16.png", spec_export 32 "favicon-32x32.png",
          spec_export 180 "apple-touch-icon.png"] ∧
    scriptRun.map (fun r => r.2.take 4)
      = some [Ev.mkdir logo_dir true true,
          Ev.write (logo_dir ++ ["favicon-16x16.png"]),
          Ev.write (logo_dir ++ ["favicon-32x32.png"]),
          Ev.write (logo_dir ++ ["apple-touch-icon.png"])] ∧
    ∀ size x y : Nat,
      (Image.new size).px x y = ⟨background.1, background.2.1, background.2.2, 255⟩ :=
  ⟨rfl, rfl, fun _ _ _ => rfl⟩

/-- C7: `mkdir(parents=True, exist_ok=True)` never raises, whatever the
starting filesystem (idempotent creation); in the script's run it is the
first I/O action, before any write; afterwards the output directory and all
its ancestors exist and the directory holds exactly the four expected
files. -/
theorem directory_creation_and_files :
    (∀ fs : FS, (FS.mkdir fs logo_dir true true).isSome = true) ∧
      scriptRun.map (fun r => r.2)
        = some [Ev.mkdir logo_dir true true,
            Ev.write (logo_dir ++ ["favicon-16x16.png"]),
            Ev.write (logo_dir ++ ["favicon-32x32.png"]),
            Ev.write (logo_dir ++ ["apple-touch-icon.png"]),
            Ev.readF (logo_dir ++ ["favicon-32x32.png"]),
            Ev.write (logo_dir ++ ["favicon.ico"])] ∧
      scriptRun.map (fun r => r.1.files.map Prod.fst)
        = some [logo_dir ++ ["favicon-16x16.png"], logo_dir ++ ["favicon-32x32.png"],
            logo_dir ++ ["apple-touch-icon.png"], logo_dir ++ ["favicon.ico"]] ∧
      scriptRun.map (fun r => r.1.dirs) = some (pathAncestors logo_dir) := by
  refine ⟨?_, by decide, by decide, by decide⟩
  intro fs
  unfold FS.mkdir
  by_cases h : fs.dirs.contains logo_dir = true
  · rw [if_pos h]
    rfl
  · rw [if_neg h]
    rfl

/-- C8: on the 16×16 canvas, after both drawing stages every pixel strictly
farther than 6 from the center (8, 8) still holds the background color
(5, 12, 26), while the disc is present inside — e.g. the rim pixel (14, 8)
holds the first brand color, not the background. -/
theorem drawing_confined_to_disc :
    (∀ x : Nat, x < 16 → ∀ y : Nat, y < 16 →
        36 < ((x : Int) - 8) ^ 2 + ((y : Int) - 8) ^ 2 →
        (finalCanvas 16).px x y = ⟨5, 12, 26, 255⟩) ∧
      (finalCanvas 16).px 14 8 = ⟨46, 227, 255, 255⟩ ∧
      (finalCanvas 16).px 14 8 ≠ ⟨5, 12, 26, 255⟩ := by decide

/-- Witness for C8 at the concrete corner pixel (0, 0), which is outside
the disc and keeps the background color. -/
theorem drawing_confined_to_disc_witness :
    (finalCanvas 16).px 0 0 = ⟨5, 12, 26, 255⟩ :=
  drawing_confined_to_disc.1 0 (by decide) 0 (by decide) (by decide)

/-- C9: at the three generated sizes the computed radius is a positive
integer and both accent stroke widths are at least 1. -/
theorem geometry_invariants :
    (1 ≤ pyRadius 16 ∧ 1 ≤ pyRadius 32 ∧ 1 ≤ pyRadius 180) ∧
      (1 ≤ accent_width1 16 ∧ 1 ≤ accent_width1 32 ∧ 1 ≤ accent_width1 180) ∧
      (1 ≤ accent_width2 16 ∧ 1 ≤ accent_width2 32 ∧ 1 ≤ accent_width2 180) := by decide

/-- C10: every blended channel stays between its two endpoint channel
values (hence within 0..255) for any positive radius; and at the radii the
script actually produces (6, 12, 72) the rim ring `i = radius` is painted
exactly the first brand color while the exact second brand color
(0, 197, 161) is never painted. -/
theorem blend_colors_in_range :
    (∀ n : Nat, 0 < n → ∀ i : Nat, i ≤ n → 1 ≤ i →
        (blendChannel 46 0 i n ≤ 46 ∧
          197 ≤ blendChannel 227 197 i n ∧ blendChannel 227 197 i n ≤ 227 ∧
          161 ≤ blendChannel 255 161 i n ∧ blendChannel 255 161 i n ≤ 255)) ∧
      ∀ n ∈ [6, 12, 72], ∀ i : Nat, i ≤ n → 1 ≤ i →
        (i = n → blendColor i n = ⟨46, 227, 255, 255⟩) ∧
          blendColor i n ≠ ⟨0, 197, 161, 255⟩ := by
  constructor
  · intro n hn i hin _
    refine ⟨(blendChannel_bounds 46 0 i n (by decide) hn hin).2,
      (blendChannel_bounds 227 197 i n (by decide) hn hin).1,
      (blendChannel_bounds 227 197 i n (by decide) hn hin).2,
      (blendChannel_bounds 255 161 i n (by decide) hn hin).1,
      (blendChannel_bounds 255 161 i n (by decide) hn hin).2⟩
  · intro n hn
    fin_cases hn <;> decide

/-- Witness for C10 at radius 6: the rim ring is the first brand color, and
the bounds hold at ring 3. -/
theorem blend_colors_in_range_witness :
    blendColor 6 6 = ⟨46, 227, 255, 255⟩ ∧ blendChannel 46 0 3 6 ≤ 46 :=
  ⟨(blend_colors_in_range.2 6 (by decide) 6 (by decide) (by decide)).1 rfl,
   (blend_colors_in_range.1 6 (by decide) 3 (by decide) (by decide)).1⟩
